import Mathlib

set_option maxHeartbeats 1000000
set_option maxRecDepth 8000

/- Formal model of the scrape-and-summarize pipeline of CrewAI-Webscrap
   (src/app/agent.py; src/app/streamlit_app.py is a near-duplicate variant).
   Strings are modelled as List Char.  The external collaborators (the HTTP
   transport, the html parser, the completion endpoint, the telemetry backend)
   enter the model as oracle data: the parsed document tree, the completion
   response text together with its JSON decoding, and boolean availability
   flags.  All pipeline logic (URL extraction, noise-tag pruning, paragraph
   joining, truncation, prompt building, JSON fallback, redaction, telemetry
   guarding) is translated from the source. -/

/-- Python whitespace (the set accepted by str.isspace and the regex class \s
    on str; its complement defines \S). -/
def isPySpace (c : Char) : Bool :=
  c == ' ' || c == '\t' || c == '\n' || c == '\r' || c == '\x0b' || c == '\x0c' ||
  c == '\x1c' || c == '\x1d' || c == '\x1e' || c == '\x1f' || c == '\x85' ||
  c == '\xa0' || c == '\u1680' ||
  (decide ((0x2000 : UInt32) ≤ c.val) && decide (c.val ≤ (0x200a : UInt32))) ||
  c == '\u2028' || c == '\u2029' || c == '\u202F' || c == '\u205F' || c == '\u3000'

/-- Greedy run of `\S` characters. -/
def nonSpaceRun (s : List Char) : List Char := s.takeWhile (fun c => !isPySpace c)

def schemeHttp : List Char := "http://".toList

def schemeHttps : List Char := "https://".toList

/-- One attempt of the regex `https?://\S+` anchored at the head of `s`
    (source: `_extract_first_url`, src/app/agent.py line 47).  The optional `s`
    is tried greedily; the `\S+` run must be non-empty. -/
def matchUrlAt (s : List Char) : Option (List Char) :=
  if schemeHttps.isPrefixOf s then
    let run := nonSpaceRun (s.drop 8)
    if run.isEmpty then none else some (schemeHttps ++ run)
  else if schemeHttp.isPrefixOf s then
    let run := nonSpaceRun (s.drop 7)
    if run.isEmpty then none else some (schemeHttp ++ run)
  else none

/-- Leftmost match of `https?://\S+`, as selected by `re.findall(...)[0]`. -/
def findFirstUrl : List Char → Option (List Char)
  | [] => none
  | c :: cs =>
    match matchUrlAt (c :: cs) with
    | some m => some m
    | none => findFirstUrl cs

/-- `_extract_first_url` (src/app/agent.py lines 46-48). -/
def extract_first_url (text : List Char) : Option (List Char) := findFirstUrl text

/-- The suffix starts with at least one non-whitespace character. -/
def hasNonSpaceHead : List Char → Bool
  | [] => false
  | c :: _ => !isPySpace c

/-- Modelled from the spec (§4.1 UrlExtractor), for comparison with the code's
    `extract_first_url`: scan positions left to right for the first suffix that
    begins with `http://` or `https://` followed by one or more non-whitespace
    characters; return the scheme plus the greedy non-whitespace run, verbatim,
    with no normalization and no trailing-punctuation trimming; absent when no
    position qualifies. -/
def urlSpecExtract : List Char → Option (List Char)
  | [] => none
  | c :: cs =>
    if schemeHttps.isPrefixOf (c :: cs) && hasNonSpaceHead ((c :: cs).drop 8) then
      some (schemeHttps ++ nonSpaceRun ((c :: cs).drop 8))
    else if schemeHttp.isPrefixOf (c :: cs) && hasNonSpaceHead ((c :: cs).drop 7) then
      some (schemeHttp ++ nonSpaceRun ((c :: cs).drop 7))
    else urlSpecExtract cs

/-- The input contains a substring beginning with `http://` or `https://`. -/
def hasUrlSchemeSubstring : List Char → Bool
  | [] => false
  | c :: cs =>
    schemeHttp.isPrefixOf (c :: cs) || schemeHttps.isPrefixOf (c :: cs) ||
      hasUrlSchemeSubstring cs

/-- Parsed HTML node, as delivered by the external html parser (the parse step
    of BeautifulSoup is an external collaborator; the tree is its output). -/
inductive Node where
  | text (s : List Char)
  | elem (tag : List Char) (children : List Node)

/-- The five noise element kinds removed by `scrape_website`. -/
def noiseTags : List (List Char) :=
  ["script".toList, "style".toList, "nav".toList, "footer".toList, "header".toList]

/-- The paragraph tag name. -/
def pTag : List Char := "p".toList

mutual

/-- The `tag.decompose()` loop of `scrape_website` (src/app/agent.py lines
    62-63): drop the noise elements together with their subtrees. -/
def pruneNode : Node → List Node
  | Node.text s => [Node.text s]
  | Node.elem tag cs => if tag ∈ noiseTags then [] else [Node.elem tag (pruneNodes cs)]

def pruneNodes : List Node → List Node
  | [] => []
  | n :: ns => pruneNode n ++ pruneNodes ns

end

mutual

/-- `soup.find_all("p")`: every paragraph element, in document order. -/
def findParagraphsNode : Node → List Node
  | Node.text _ => []
  | Node.elem tag cs =>
    (if tag = pTag then [Node.elem tag cs] else []) ++ findParagraphsNodes cs

def findParagraphsNodes : List Node → List Node
  | [] => []
  | n :: ns => findParagraphsNode n ++ findParagraphsNodes ns

end

mutual

/-- Descendant text segments in document order (the strings that `get_text`
    joins). -/
def nodeStrings : Node → List (List Char)
  | Node.text s => [s]
  | Node.elem _ cs => nodesStrings cs

def nodesStrings : List Node → List (List Char)
  | [] => []
  | n :: ns => nodeStrings n ++ nodesStrings ns

end

/-- `sep.join(parts)`. -/
def joinWith (sep : List Char) : List (List Char) → List Char
  | [] => []
  | [x] => x
  | x :: xs => x ++ sep ++ joinWith sep xs

/-- Python `str.strip()`. -/
def pyStrip (s : List Char) : List Char :=
  ((s.dropWhile isPySpace).reverse.dropWhile isPySpace).reverse

/-- `p.get_text(" ")`: the descendant text segments joined with single spaces. -/
def getTextSpace (n : Node) : List Char := joinWith [' '] (nodeStrings n)

/-- `[p.get_text(" ").strip() for p in soup.find_all("p")]` over the pruned
    tree (src/app/agent.py line 65). -/
def paragraphTexts (doc : List Node) : List (List Char) :=
  (findParagraphsNodes (pruneNodes doc)).map (fun p => pyStrip (getTextSpace p))

/-- `" ".join(p for p in paragraphs if p)` (src/app/agent.py line 66). -/
def extractFullText (doc : List Node) : List Char :=
  joinWith [' '] ((paragraphTexts doc).filter (fun p => !p.isEmpty))

/-- `text[:8000]` (src/app/agent.py line 67): the successful extraction
    result. -/
def extractContent (doc : List Node) : List Char := (extractFullText doc).take 8000

/-- Behavior of `requests.get` plus `raise_for_status` for the single fetch:
    either a 2xx response whose body parses to the given tree, or an exception
    (transport error, timeout, non-2xx status) carrying its message as rendered
    by `str(exc)`. -/
inductive FetchOutcome where
  | success (doc : List Node)
  | failure (msg : List Char)

def scrapeErrMsg : List Char := "Error scraping website: ".toList

/-- `scrape_website` (src/app/agent.py lines 50-69): the try body on success,
    the except arm on any fetch or status error. -/
def scrapeWebsite : FetchOutcome → List Char
  | FetchOutcome.success doc => extractContent doc
  | FetchOutcome.failure msg => scrapeErrMsg ++ msg

/-- Regex class `[A-Za-z0-9._%+-]` (email local part). -/
def isEmailLocalChar (c : Char) : Bool :=
  c.isAlpha || c.isDigit || c == '.' || c == '_' || c == '%' || c == '+' || c == '-'

/-- Regex class `[A-Za-z0-9.-]` (email domain). -/
def isEmailDomainChar (c : Char) : Bool :=
  c.isAlpha || c.isDigit || c == '.' || c == '-'

/-- Greedy `[A-Za-z]` run length. -/
def alphaRunLen (s : List Char) : Nat := (s.takeWhile Char.isAlpha).length

/-- Matches `\.[A-Za-z]{2,}` at the head of the list, returning the consumed
    length. -/
def emailTld : List Char → Option Nat
  | '.' :: rest =>
    if 2 ≤ alphaRunLen rest then some (1 + alphaRunLen rest) else none
  | _ => none

/-- Backtracking loop for `[A-Za-z0-9.-]+\.[A-Za-z]{2,}`: the greedy domain run
    is shortened until the dot-TLD tail matches. -/
def tryEmailDomain (rest : List Char) : Nat → Option Nat
  | 0 => none
  | j + 1 =>
    match emailTld (rest.drop (j + 1)) with
    | some m => some (j + 1 + m)
    | none => tryEmailDomain rest j

/-- The regex `[A-Za-z0-9._%+-]+@[A-Za-z0-9.-]+\.[A-Za-z]{2,}` anchored at the
    head of `s`, with Python backtracking semantics; returns the match length.
    (The local-part run never backtracks usefully, since `@` is outside its
    class.) -/
def matchEmailAt (s : List Char) : Option Nat :=
  if (s.takeWhile isEmailLocalChar).length = 0 then none
  else
    match s.drop (s.takeWhile isEmailLocalChar).length with
    | '@' :: rest =>
      match tryEmailDomain rest (rest.takeWhile isEmailDomainChar).length with
      | some m => some ((s.takeWhile isEmailLocalChar).length + 1 + m)
      | none => none
    | _ => none

def redactedEmail : List Char := "[REDACTED_EMAIL]".toList

def redactedKey : List Char := "[REDACTED_KEY]".toList

/-- The `re.sub` scan for the email pattern: leftmost, non-overlapping,
    resuming after each match.  The fuel is the remaining length; every step
    consumes at least one character, so the initial fuel `s.length` is never
    exhausted early. -/
def subEmailAux : Nat → List Char → List Char
  | 0, s => s
  | _ + 1, [] => []
  | fuel + 1, c :: cs =>
    match matchEmailAt (c :: cs) with
    | some n => redactedEmail ++ subEmailAux fuel ((c :: cs).drop n)
    | none => c :: subEmailAux fuel cs

/-- First substitution of `_scrub_sensitive` (src/app/agent.py line 103). -/
def subEmail (s : List Char) : List Char := subEmailAux s.length s

/-- Regex word character (the class `\w`, ASCII view used by the key data). -/
def isWordChar (c : Char) : Bool := c.isAlpha || c.isDigit || c == '_'

/-- Regex class `[A-Za-z0-9_\-]` (key body). -/
def isKeyBodyChar (c : Char) : Bool := c.isAlpha || c.isDigit || c == '_' || c == '-'

/-- Backtracking loop for `[A-Za-z0-9_\-]+\b`: the greedy run is shortened
    until the trailing word boundary holds. -/
def tryKeyRun (rest : List Char) : Nat → Option Nat
  | 0 => none
  | j + 1 =>
    let lastW := match rest[j]? with | some c => isWordChar c | none => false
    let nextW := match rest[j + 1]? with | some c => isWordChar c | none => false
    if lastW != nextW then some (j + 1) else tryKeyRun rest j

/-- The regex `\b(sk|pk)-[A-Za-z0-9_\-]+\b` anchored at the head of `s`, where
    `prev` is the character before the current position (context for the
    leading word boundary); returns the match length. -/
def matchKeyAt (prev : Option Char) (s : List Char) : Option Nat :=
  let boundary := match prev with | none => true | some c => !isWordChar c
  if !boundary then none
  else if ("sk-".toList).isPrefixOf s || ("pk-".toList).isPrefixOf s then
    match tryKeyRun (s.drop 3) ((s.drop 3).takeWhile isKeyBodyChar).length with
    | some j => some (3 + j)
    | none => none
  else none

/-- The `re.sub` scan for the key pattern, tracking the previous character of
    the original string for the leading word boundary. -/
def subKeyAux : Nat → Option Char → List Char → List Char
  | 0, _, s => s
  | _ + 1, _, [] => []
  | fuel + 1, prev, c :: cs =>
    match matchKeyAt prev (c :: cs) with
    | some n => redactedKey ++ subKeyAux fuel ((c :: cs)[n - 1]?) ((c :: cs).drop n)
    | none => c :: subKeyAux fuel (some c) cs

/-- Second substitution of `_scrub_sensitive` (src/app/agent.py line 104). -/
def subKey (s : List Char) : List Char := subKeyAux s.length none s

/-- `_scrub_sensitive` (src/app/agent.py lines 102-105): email redaction, then
    API-key redaction. -/
def scrub_sensitive (s : List Char) : List Char := subKey (subEmail s)

/-- JSON value as produced by `json.loads` (numbers are modelled as integers;
    the claims only exercise strings, arrays and objects).  An object is the
    decoded dict: key/value entries with distinct keys. -/
inductive JValue where
  | jnull
  | jbool (b : Bool)
  | jint (n : Int)
  | jstr (s : List Char)
  | jarr (elems : List JValue)
  | jobj (fields : List (List Char × JValue))

mutual

/-- Python repr rendering of a decoded JSON value (escaping inside strings is
    elided: it is only applied to quote-free data). -/
def pyRepr : JValue → List Char
  | JValue.jnull => "None".toList
  | JValue.jbool true => "True".toList
  | JValue.jbool false => "False".toList
  | JValue.jint n => (toString n).toList
  | JValue.jstr s => '\x27' :: (s ++ ['\x27'])
  | JValue.jarr xs => '[' :: (pyReprItems xs ++ [']'])
  | JValue.jobj fs => '\x7b' :: (pyReprFields fs ++ ['\x7d'])

def pyReprItems : List JValue → List Char
  | [] => []
  | [x] => pyRepr x
  | x :: xs => pyRepr x ++ ", ".toList ++ pyReprItems xs

def pyReprFields : List (List Char × JValue) → List Char
  | [] => []
  | [kv] => '\x27' :: (kv.1 ++ "\x27: ".toList ++ pyRepr kv.2)
  | kv :: fs => '\x27' :: (kv.1 ++ "\x27: ".toList ++ pyRepr kv.2 ++ ", ".toList) ++ pyReprFields fs

end

/-- Python `str()` of a decoded JSON value, as in `str(obj.get("answer", ""))`:
    identity on strings, repr rendering otherwise. -/
def pyStr : JValue → List Char
  | JValue.jstr s => s
  | v => pyRepr v

def answerKey : List Char := "answer".toList

def reasoningKey : List Char := "reasoning".toList

def stepsKey : List Char := "intermediate_steps".toList

/-- `dict.get`: the value at `k`, if present. -/
def lookupField (fields : List (List Char × JValue)) (k : List Char) : Option JValue :=
  match fields.find? (fun kv => kv.1 == k) with
  | some kv => some kv.2
  | none => none

/-- Python truthiness of a decoded JSON value (`if reasoning:` / `if steps:`). -/
def jTruthy : JValue → Bool
  | JValue.jnull => false
  | JValue.jbool b => b
  | JValue.jint n => n != 0
  | JValue.jstr s => !s.isEmpty
  | JValue.jarr xs => !xs.isEmpty
  | JValue.jobj fs => !fs.isEmpty

/-- The completion endpoint's behavior for the one call issued per request:
    `content` is `resp.choices[0].message.content` (possibly null), `decoded`
    the result of `json.loads(content or "")` in capture-CoT mode (`none` when
    decoding raises). -/
structure CompletionResp where
  content : Option (List Char)
  decoded : Option JValue

/-- The triple returned by `_call_openai_and_parse`. -/
structure ParseOut where
  answer : Option (List Char)
  reasoning : Option JValue
  steps : Option JValue

/-- Observable side effects of one `respond` call: the outbound fetch, the
    completion call (with both prompt messages), and every attempted telemetry
    call with the data handed to it. -/
inductive Event where
  | fetchGet (url : List Char)
  | completionCall (system user : List Char)
  | traceCreate
  | spanScrape (characters : Nat)
  | genCreate (system user : List Char)
  | spanCot (output : JValue)
  | spanSteps (output : JValue)

/-- A telemetry call, as opposed to the fetch and the completion call. -/
def isTelemetryEvent : Event → Bool
  | Event.fetchGet _ => false
  | Event.completionCall _ _ => false
  | _ => true

/-- Process configuration and oracle behavior of the external collaborators:
    `langfuse` is whether the Langfuse constructor succeeded (`self.langfuse`
    is not `None` after `__init__`), `traceOk` whether `langfuse.trace` in
    `respond` succeeds, the other flags whether the remaining guarded telemetry
    calls succeed, `captureCot` the `LANGFUSE_CAPTURE_COT` flag, `fetch` the
    network behavior and `completion` the completion endpoint behavior. -/
structure Env where
  langfuse : Bool
  traceOk : Bool
  scrapeSpanOk : Bool
  genOk : Bool
  cotSpanOk : Bool
  stepsSpanOk : Bool
  captureCot : Bool
  fetch : FetchOutcome
  completion : CompletionResp

def systemPrompt : List Char :=
  ("You are a precise web analyst. Use only the provided content. " ++
   "If information is missing, say so clearly. Keep answers concise but reasoning rich.").toList

def promptHead : List Char := "Below is content scraped from a public website.\n\nContent:\n".toList

def promptMid : List Char := "\n\nUser question:\n".toList

/-- The fixed tail of the capture-CoT user prompt (src/app/agent.py lines
    84-92). -/
def userPromptCotTail : List Char :=
  ("Return a JSON object with the following keys:\n  - reasoning: a detailed, step-by-step internal chain-of-thought (several short paragraphs or numbered steps).     This is for internal telemetry only and should not be shown to the user. Avoid copying private data.\n  - intermediate_steps: an optional structured breakdown of reasoning steps as an array of objects, e.g.:\n    [ \x7b\"step\": 1, \"thought\": \"Identified key topics\"\x7d, \x7b\"step\": 2, \"thought\": \"Summarized events\"\x7d ]\n  - answer: the concise final answer to present to the user (1–3 short paragraphs).\n\nMake \x27reasoning\x27 thorough: include the steps you took to interpret the content, how you prioritized facts, which parts of the content you used, and any assumptions. Do NOT include credentials or PII.\nReturn only valid JSON. Keep the object compact but allow substantial detail in \x27reasoning\x27.").toList

/-- Capture-CoT user prompt (src/app/agent.py lines 78-93). -/
def userPromptCot (text query : List Char) : List Char :=
  promptHead ++ text ++ promptMid ++ query ++ "\n\n".toList ++ userPromptCotTail

/-- Plain-mode user prompt (src/app/agent.py lines 95-100). -/
def userPromptPlain (text query : List Char) : List Char :=
  promptHead ++ text ++ promptMid ++ query ++ "\n\n".toList ++
    "Provide a clear, factual, carefully structured answer.".toList

/-- The user prompt for the configured capture mode. -/
def userPrompt (cot : Bool) (text query : List Char) : List Char :=
  if cot then userPromptCot text query else userPromptPlain text query

/-- `_call_openai_and_parse` (src/app/agent.py lines 107-140).  In capture-CoT
    mode: strict-JSON completion, `json.loads`, `str(obj.get("answer", ""))`,
    `obj.get("reasoning")` scrubbed only when it is a string, and
    `obj.get("intermediate_steps")`; any failure inside the try block (a decode
    error, or attribute access on a decoded non-object) falls back to the raw
    text as the answer.  In plain mode: the raw content is returned. -/
def callOpenaiAndParse (cot : Bool) (resp : CompletionResp) (sys user : List Char) :
    ParseOut × List Event :=
  if cot then
    let out : ParseOut :=
      match resp.decoded with
      | some (JValue.jobj fields) =>
        ⟨some (pyStr ((lookupField fields answerKey).getD (JValue.jstr []))),
         (match lookupField fields reasoningKey with
          | some (JValue.jstr r) => some (JValue.jstr (scrub_sensitive r))
          | v => v),
         lookupField fields stepsKey⟩
      | _ => ⟨some (resp.content.getD []), none, none⟩
    (out, [Event.completionCall sys user])
  else
    (⟨resp.content, none, none⟩, [Event.completionCall sys user])

/-- `summarize_content` (src/app/agent.py lines 71-175): builds the prompts,
    optionally opens a generation plus the chain-of-thought and
    intermediate-steps spans (each attempt guarded by try/except), and returns
    the parsed answer.  `trace` states whether `respond` passed a live trace
    handle. -/
def summarizeContent (env : Env) (text query : List Char) (trace : Bool)
    (url : List Char) : Option (List Char) × List Event :=
  let user := userPrompt env.captureCot text query
  if env.langfuse && trace then
    let pr := callOpenaiAndParse env.captureCot env.completion systemPrompt user
    let cotEvs :=
      if env.captureCot then
        (match pr.1.reasoning with
         | some v => if jTruthy v then [Event.spanCot v] else []
         | none => []) ++
        (match pr.1.steps with
         | some v => if jTruthy v then [Event.spanSteps v] else []
         | none => [])
      else []
    (pr.1.answer, Event.genCreate systemPrompt user :: (pr.2 ++ cotEvs))
  else
    let pr := callOpenaiAndParse env.captureCot env.completion systemPrompt user
    (pr.1.answer, pr.2)

def noUrlMsg : List Char := "Please provide a valid website URL in your query.".toList

/-- `respond` (src/app/agent.py lines 177-204): extract the first URL (early
    exit when absent), open a trace (guarded), fetch and extract, log the
    scrape span with the character count (guarded), summarize, and return
    `(url, scraped, summary)` together with the observable events in order. -/
def respond (env : Env) (input : List Char) :
    (List Char × List Char × Option (List Char)) × List Event :=
  match extract_first_url input with
  | none => (([], [], some noUrlMsg), [])
  | some url =>
    let traceEvs := if env.langfuse then [Event.traceCreate] else []
    let tr := env.langfuse && env.traceOk
    let scraped := scrapeWebsite env.fetch
    let spanEvs := if tr then [Event.spanScrape scraped.length] else []
    let sm := summarizeContent env scraped input tr url
    ((url, scraped, sm.1), traceEvs ++ Event.fetchGet url :: (spanEvs ++ sm.2))

/-- Markup containing a script, a nav, and three paragraphs with texts "A",
    "B", "C" (the §8 extraction example), as parsed. -/
def exampleDoc : List Node :=
  [Node.elem ("html".toList)
    [Node.elem ("script".toList) [Node.text ("var x = 1;".toList)],
     Node.elem ("nav".toList) [Node.text ("menu".toList)],
     Node.elem ("p".toList) [Node.text ("A".toList)],
     Node.elem ("p".toList) [Node.text ("B".toList)],
     Node.elem ("p".toList) [Node.text ("C".toList)]]]

/-- A document whose single paragraph holds 8001 characters. -/
def capDoc : List Node :=
  [Node.elem pTag [Node.text (List.replicate 8001 'a')]]

/-- A run with telemetry construction failed, plain capture mode, a failing
    fetch and a plain non-empty completion. -/
def envFetchFail : Env :=
  ⟨false, false, false, false, false, false, false,
   FetchOutcome.failure ("boom".toList), ⟨some ("ok".toList), none⟩⟩

/-- The same run as `envFetchFail` but with the telemetry backend constructed
    and every telemetry call succeeding. -/
def envFetchFailTel : Env :=
  ⟨true, true, true, true, true, true, false,
   FetchOutcome.failure ("boom".toList), ⟨some ("ok".toList), none⟩⟩

/-- A run whose fetch fails with an 8000-character cause message. -/
def envLongErr : Env :=
  ⟨false, false, false, false, false, false, false,
   FetchOutcome.failure (List.replicate 8000 'x'), ⟨none, none⟩⟩

/-- Decoded completion object whose reasoning field is an array holding an
    email address. -/
def arrReasoningFields : List (List Char × JValue) :=
  [(reasoningKey, JValue.jarr [JValue.jstr ("a@b.com".toList)])]

/-- A run with telemetry fully available, capture-CoT mode, and a completion
    decoding to an object whose reasoning field is an array. -/
def envArrReasoning : Env :=
  ⟨true, true, true, true, true, true, true,
   FetchOutcome.failure [],
   ⟨some [], some (JValue.jobj arrReasoningFields)⟩⟩

/-- Decoded completion object with a string answer and a string reasoning that
    contains an email address. -/
def cotEmailFields : List (List Char × JValue) :=
  [(answerKey, JValue.jstr ("X".toList)),
   (reasoningKey, JValue.jstr ("contact me at a@b.com".toList))]

/-- A run with telemetry fully available, capture-CoT mode, and a completion
    decoding to `cotEmailFields`. -/
def envCotEmail : Env :=
  ⟨true, true, true, true, true, true, true,
   FetchOutcome.failure [],
   ⟨some [], some (JValue.jobj cotEmailFields)⟩⟩

/-! Helper lemmas. -/

theorem isPrefixOf_exists : ∀ {l s : List Char}, l.isPrefixOf s = true → ∃ t, s = l ++ t := by
  intro l
  induction l with
  | nil => intro s _; exact ⟨s, rfl⟩
  | cons a as ih =>
    intro s h
    cases s with
    | nil => exact Bool.noConfusion h
    | cons b bs =>
      have h' : (a == b && as.isPrefixOf bs) = true := h
      have hab : a = b := beq_iff_eq.mp ((Bool.and_eq_true _ _).mp h').1
      obtain ⟨t, ht⟩ := ih ((Bool.and_eq_true _ _).mp h').2
      subst hab
      exact ⟨t, by rw [ht]; rfl⟩

theorem schemeHttp_not_of_https (t : List Char) :
    schemeHttp.isPrefixOf (schemeHttps ++ t) = false := rfl

theorem nonSpaceRun_isEmpty (t : List Char) :
    (nonSpaceRun t).isEmpty = !hasNonSpaceHead t := by
  cases t with
  | nil => rfl
  | cons c cs =>
    by_cases h : isPySpace c = true
    · simp [nonSpaceRun, hasNonSpaceHead, List.takeWhile_cons, h]
    · simp [nonSpaceRun, hasNonSpaceHead, List.takeWhile_cons, h]

theorem matchUrlAt_spec (s : List Char) :
    matchUrlAt s =
      (if schemeHttps.isPrefixOf s && hasNonSpaceHead (s.drop 8) then
        some (schemeHttps ++ nonSpaceRun (s.drop 8))
      else if schemeHttp.isPrefixOf s && hasNonSpaceHead (s.drop 7) then
        some (schemeHttp ++ nonSpaceRun (s.drop 7))
      else none) := by
  rw [matchUrlAt]
  cases h1 : schemeHttps.isPrefixOf s with
  | true =>
    obtain ⟨t, ht⟩ := isPrefixOf_exists h1
    have h3 : schemeHttp.isPrefixOf s = false := by
      rw [ht]; exact schemeHttp_not_of_https t
    rw [h3]
    cases h2 : hasNonSpaceHead (s.drop 8) with
    | true => simp [nonSpaceRun_isEmpty, h2]
    | false => simp [nonSpaceRun_isEmpty, h2]
  | false =>
    cases h3 : schemeHttp.isPrefixOf s with
    | true =>
      cases h4 : hasNonSpaceHead (s.drop 7) with
      | true => simp [nonSpaceRun_isEmpty, h4]
      | false => simp [nonSpaceRun_isEmpty, h4]
    | false => simp

theorem findFirstUrl_eq_spec : ∀ s : List Char, findFirstUrl s = urlSpecExtract s := by
  intro s
  induction s with
  | nil => rfl
  | cons c cs ih =>
    rw [findFirstUrl, urlSpecExtract, matchUrlAt_spec]
    cases h1 : (schemeHttps.isPrefixOf (c :: cs) && hasNonSpaceHead ((c :: cs).drop 8)) with
    | true => simp
    | false =>
      cases h2 : (schemeHttp.isPrefixOf (c :: cs) && hasNonSpaceHead ((c :: cs).drop 7)) with
      | true => simp
      | false => simpa using ih

theorem findFirstUrl_none_of_no_scheme :
    ∀ s : List Char, hasUrlSchemeSubstring s = false → findFirstUrl s = none := by
  intro s
  induction s with
  | nil => intro _; rfl
  | cons c cs ih =>
    intro h
    rw [hasUrlSchemeSubstring] at h
    simp only [Bool.or_eq_false_iff] at h
    obtain ⟨⟨h1, h2⟩, h3⟩ := h
    rw [findFirstUrl, show matchUrlAt (c :: cs) = none by simp [matchUrlAt, h1, h2]]
    exact ih h3

/-- C7: for every text, URL extraction returns the first (leftmost) token
    beginning with `http://` or `https://` followed by one or more
    non-whitespace characters, verbatim — no normalization and no
    trailing-punctuation trimming — and returns absent when no such token
    exists; the function is a pure function of its input (it is a plain Lean
    function with no effect model).  The spec-side extractor `urlSpecExtract`
    states exactly this contract; the two concrete conjuncts exhibit the
    leftmost choice and the retained trailing punctuation. -/
theorem url_extraction_first :
    (∀ s : List Char, extract_first_url s = urlSpecExtract s) ∧
    extract_first_url ("see https://a.com/x), then http://b.org".toList)
      = some ("https://a.com/x),".toList) ∧
    extract_first_url ("no url http:// here".toList) = none :=
  ⟨fun s => findFirstUrl_eq_spec s, by decide, by decide⟩

/-- C1: for every input with no substring beginning with `http://` or
    `https://`, `respond` returns exactly
    `("", "", "Please provide a valid website URL in your query.")` and
    produces no events at all — in particular no fetch, no completion call and
    no telemetry call. -/
theorem respond_no_url :
    ∀ (env : Env) (input : List Char),
      hasUrlSchemeSubstring input = false →
      respond env input = (([], [], some noUrlMsg), []) := by
  intro env input h
  have hx : extract_first_url input = none := findFirstUrl_none_of_no_scheme input h
  unfold respond
  rw [hx]

theorem respond_no_url_witness :
    respond envFetchFail ("summarize the news please".toList)
      = (([], [], some noUrlMsg), []) :=
  respond_no_url envFetchFail ("summarize the news please".toList) (by decide)

theorem pruneNodes_append (a b : List Node) :
    pruneNodes (a ++ b) = pruneNodes a ++ pruneNodes b := by
  induction a with
  | nil => rfl
  | cons n ns ih => simp [pruneNodes, ih]

theorem pruneNode_p (t : List Char) :
    pruneNode (Node.elem pTag [Node.text t]) = [Node.elem pTag [Node.text t]] := by
  rw [pruneNode, if_neg (by decide : ¬ (pTag ∈ noiseTags))]
  rfl

theorem findParagraphsNode_p (t : List Char) :
    findParagraphsNode (Node.elem pTag [Node.text t]) = [Node.elem pTag [Node.text t]] := by
  rw [findParagraphsNode, if_pos rfl]
  rfl

theorem findParagraphs_prune_simple (texts : List (List Char)) :
    findParagraphsNodes (pruneNodes (texts.map fun t => Node.elem pTag [Node.text t]))
      = texts.map fun t => Node.elem pTag [Node.text t] := by
  induction texts with
  | nil => rfl
  | cons t ts ih =>
    have hstep : pruneNodes ((t :: ts).map fun t => Node.elem pTag [Node.text t])
        = Node.elem pTag [Node.text t]
            :: pruneNodes (ts.map fun t => Node.elem pTag [Node.text t]) := by
      rw [List.map_cons, pruneNodes, pruneNode_p]
      rfl
    rw [hstep, findParagraphsNodes, findParagraphsNode_p, ih]
    rfl

theorem getTextSpace_p (t : List Char) :
    getTextSpace (Node.elem pTag [Node.text t]) = t := rfl

theorem paragraphTexts_simple (texts : List (List Char)) :
    paragraphTexts (texts.map fun t => Node.elem pTag [Node.text t])
      = texts.map pyStrip := by
  rw [paragraphTexts, findParagraphs_prune_simple]
  induction texts with
  | nil => rfl
  | cons t ts ih => simp only [List.map_cons, getTextSpace_p, ih]

theorem nodesStrings_map_text (segs : List (List Char)) :
    nodesStrings (segs.map Node.text) = segs := by
  induction segs with
  | nil => rfl
  | cons s ss ih => simp [nodesStrings, nodeStrings, ih]

/-- C5: content extraction removes script, style, nav, footer and header
    elements with their subtrees before text extraction, extracts text from all
    paragraph elements with their interior text segments joined by single
    spaces, and joins the paragraphs with single spaces; on the markup with a
    script, a nav and three paragraphs "A", "B", "C" it yields exactly
    "A B C". -/
theorem content_extraction :
    extractContent exampleDoc = "A B C".toList ∧
    (∀ (pre post : List Node) (tag : List Char) (children : List Node),
      tag ∈ noiseTags →
      extractContent (pre ++ Node.elem tag children :: post)
        = extractContent (pre ++ post)) ∧
    (∀ texts : List (List Char),
      extractContent (texts.map fun t => Node.elem pTag [Node.text t])
        = (joinWith [' '] ((texts.map pyStrip).filter fun p => !p.isEmpty)).take 8000) ∧
    (∀ segs : List (List Char),
      getTextSpace (Node.elem pTag (segs.map Node.text)) = joinWith [' '] segs) := by
  refine ⟨by decide, ?_, ?_, ?_⟩
  · intro pre post tag children htag
    have hp : pruneNodes (pre ++ Node.elem tag children :: post)
        = pruneNodes (pre ++ post) := by
      rw [pruneNodes_append, pruneNodes_append]
      simp [pruneNodes, pruneNode, htag]
    simp only [extractContent, extractFullText, paragraphTexts, hp]
  · intro texts
    simp only [extractContent, extractFullText]
    rw [paragraphTexts_simple]
  · intro segs
    simp only [getTextSpace, nodeStrings]
    rw [nodesStrings_map_text]

theorem content_extraction_witness :
    extractContent ([Node.elem ("p".toList) [Node.text ("A".toList)]] ++
        Node.elem ("script".toList) [Node.text ("bad".toList)] ::
        [Node.elem ("p".toList) [Node.text ("B".toList)]])
      = extractContent ([Node.elem ("p".toList) [Node.text ("A".toList)]] ++
        [Node.elem ("p".toList) [Node.text ("B".toList)]]) :=
  content_extraction.2.1 _ _ _ _ (by decide)

theorem dropWhile_replicate_a (n : Nat) :
    List.dropWhile isPySpace (List.replicate n 'a') = List.replicate n 'a' := by
  cases n with
  | zero => rfl
  | succ m => rfl

theorem pyStrip_replicate_a (n : Nat) :
    pyStrip (List.replicate n 'a') = List.replicate n 'a' := by
  rw [pyStrip, dropWhile_replicate_a, List.reverse_replicate, dropWhile_replicate_a,
      List.reverse_replicate]

theorem extractFullText_capDoc : extractFullText capDoc = List.replicate 8001 'a' := by
  have hne : (List.replicate 8001 'a').isEmpty = false := by
    rw [show (8001 : Nat) = 8000 + 1 from rfl, List.replicate_succ]; rfl
  have h1 : paragraphTexts capDoc = [List.replicate 8001 'a'] := by
    rw [show paragraphTexts capDoc
        = [pyStrip (getTextSpace (Node.elem pTag [Node.text (List.replicate 8001 'a')]))]
        from rfl]
    rw [getTextSpace_p, pyStrip_replicate_a]
  rw [extractFullText, h1]
  rw [show List.filter (fun p => !p.isEmpty) [List.replicate 8001 'a']
      = [List.replicate 8001 'a'] from by rw [List.filter_cons, hne]; rfl]
  rfl

/-- C6: the successful extraction never exceeds 8000 characters, and whenever
    the concatenated paragraph text exceeds 8000 characters the result has
    exactly 8000 characters and equals the prefix of the untruncated
    concatenation; the cap is applied once, to the full concatenation
    `extractFullText`, not per paragraph. -/
theorem content_cap :
    ∀ doc : List Node,
      (extractContent doc).length ≤ 8000 ∧
      (8000 < (extractFullText doc).length →
        (extractContent doc).length = 8000 ∧
        extractContent doc = (extractFullText doc).take 8000) := by
  intro doc
  constructor
  · simp only [extractContent, List.length_take]
    omega
  · intro h
    refine ⟨?_, rfl⟩
    simp only [extractContent, List.length_take]
    omega

theorem content_cap_witness :
    8000 < (extractFullText capDoc).length ∧ (extractContent capDoc).length = 8000 := by
  have h : 8000 < (extractFullText capDoc).length := by
    rw [extractFullText_capDoc, List.length_replicate]
    omega
  exact ⟨h, ((content_cap capDoc).2 h).1⟩

theorem callOpenai_events (cot : Bool) (resp : CompletionResp) (sys user : List Char) :
    (callOpenaiAndParse cot resp sys user).2 = [Event.completionCall sys user] := by
  cases cot <;> rfl

theorem summarizeContent_answer (env : Env) (text q : List Char) (tr : Bool)
    (url : List Char) :
    (summarizeContent env text q tr url).1
      = (callOpenaiAndParse env.captureCot env.completion systemPrompt
          (userPrompt env.captureCot text q)).1.answer := by
  unfold summarizeContent
  by_cases h : (env.langfuse && tr) = true
  · simp [h]
  · simp [h]

theorem summarizeContent_completion_mem (env : Env) (text q : List Char) (tr : Bool)
    (url : List Char) :
    Event.completionCall systemPrompt (userPrompt env.captureCot text q)
      ∈ (summarizeContent env text q tr url).2 := by
  unfold summarizeContent
  by_cases h : (env.langfuse && tr) = true
  · simp [h, callOpenai_events]
  · simp [h, callOpenai_events]

theorem summarizeContent_events_nofuse (env : Env) (text q : List Char) (tr : Bool)
    (url : List Char) (hl : env.langfuse = false) :
    (summarizeContent env text q tr url).2
      = [Event.completionCall systemPrompt (userPrompt env.captureCot text q)] := by
  unfold summarizeContent
  simp [hl, callOpenai_events]

theorem respond_some (env : Env) (input url : List Char)
    (hu : extract_first_url input = some url) :
    respond env input =
      ((url, scrapeWebsite env.fetch,
        (summarizeContent env (scrapeWebsite env.fetch) input
          (env.langfuse && env.traceOk) url).1),
       (if env.langfuse then [Event.traceCreate] else []) ++
         Event.fetchGet url ::
           ((if env.langfuse && env.traceOk
             then [Event.spanScrape (scrapeWebsite env.fetch).length] else []) ++
            (summarizeContent env (scrapeWebsite env.fetch) input
              (env.langfuse && env.traceOk) url).2)) := by
  unfold respond
  rw [hu]

/-- C2: whenever the fetch of the extracted URL fails (transport error, non-2xx
    status, or timeout — all represented as the raised-exception outcome), the
    scraped text returned by the pipeline is exactly
    `"Error scraping website: "` followed by the cause description, the
    pipeline still builds the prompts and calls the completion client with that
    error string in the content position of the user prompt, the summary is
    whatever answer that completion call parses to, and — whenever the
    completion endpoint returns non-empty content (plain capture mode) — the
    returned summary is non-empty. -/
theorem respond_fetch_error :
    ∀ (env : Env) (input url msg : List Char),
      extract_first_url input = some url →
      env.fetch = FetchOutcome.failure msg →
      (respond env input).1.2.1 = scrapeErrMsg ++ msg ∧
      Event.completionCall systemPrompt
          (userPrompt env.captureCot (scrapeErrMsg ++ msg) input)
        ∈ (respond env input).2 ∧
      (respond env input).1.2.2
        = (callOpenaiAndParse env.captureCot env.completion systemPrompt
            (userPrompt env.captureCot (scrapeErrMsg ++ msg) input)).1.answer ∧
      (env.captureCot = false →
        ∀ c, env.completion.content = some c → c ≠ [] →
          ∃ a, (respond env input).1.2.2 = some a ∧ a ≠ []) := by
  intro env input url msg hu hf
  rw [respond_some env input url hu, hf]
  simp only [scrapeWebsite]
  refine ⟨trivial, ?_, ?_, ?_⟩
  · have hm := summarizeContent_completion_mem env (scrapeErrMsg ++ msg) input
      (env.langfuse && env.traceOk) url
    exact List.mem_append_right _
      (List.mem_cons_of_mem _ (List.mem_append_right _ hm))
  · exact summarizeContent_answer env (scrapeErrMsg ++ msg) input
      (env.langfuse && env.traceOk) url
  · intro hcot c hc hne
    refine ⟨c, ?_, hne⟩
    rw [summarizeContent_answer env (scrapeErrMsg ++ msg) input
      (env.langfuse && env.traceOk) url, hcot]
    simp [callOpenaiAndParse, hc]

theorem respond_fetch_error_witness :
    (respond envFetchFail ("http://a".toList)).1.2.1 = scrapeErrMsg ++ "boom".toList ∧
    ∃ a, (respond envFetchFail ("http://a".toList)).1.2.2 = some a ∧ a ≠ [] := by
  have h := respond_fetch_error envFetchFail ("http://a".toList) ("http://a".toList)
      ("boom".toList) (by decide) rfl
  exact ⟨h.1, h.2.2.2 rfl ("ok".toList) rfl (by decide)⟩

/-- C10: on the fetch-failure path the returned scraped text is the full error
    string `"Error scraping website: "` (24 characters) plus the exception
    message with no truncation: its length is always 24 plus the message
    length, so when the cause description is longer than 7976 characters the
    returned scraped text exceeds 8000 characters — the cap governs only the
    success path. -/
theorem fetch_error_uncapped :
    ∀ (env : Env) (input url msg : List Char),
      extract_first_url input = some url →
      env.fetch = FetchOutcome.failure msg →
      (respond env input).1.2.1 = scrapeErrMsg ++ msg ∧
      (respond env input).1.2.1.length = 24 + msg.length ∧
      (7976 < msg.length → 8000 < (respond env input).1.2.1.length) := by
  intro env input url msg hu hf
  rw [respond_some env input url hu, hf]
  have hlen : (scrapeWebsite (FetchOutcome.failure msg)).length = 24 + msg.length := by
    simp only [scrapeWebsite, List.length_append]
    rw [show scrapeErrMsg.length = 24 from by decide]
  refine ⟨rfl, hlen, ?_⟩
  intro h
  rw [hlen]
  omega

theorem fetch_error_uncapped_witness :
    8000 < (respond envLongErr ("http://a".toList)).1.2.1.length := by
  have h := fetch_error_uncapped envLongErr ("http://a".toList) ("http://a".toList)
      (List.replicate 8000 'x') (by decide) rfl
  exact h.2.2 (by rw [List.length_replicate]; omega)

theorem callOpenai_cot_obj (resp : CompletionResp) (fields : List (List Char × JValue))
    (sys user : List Char) (hd : resp.decoded = some (JValue.jobj fields)) :
    (callOpenaiAndParse true resp sys user).1 =
      ⟨some (pyStr ((lookupField fields answerKey).getD (JValue.jstr []))),
       (match lookupField fields reasoningKey with
        | some (JValue.jstr r) => some (JValue.jstr (scrub_sensitive r))
        | v => v),
       lookupField fields stepsKey⟩ := by
  simp [callOpenaiAndParse, hd]

theorem summarize_cot_span_mem (env : Env) (text q url : List Char) (v : JValue)
    (hl : env.langfuse = true) (hc : env.captureCot = true)
    (hr : (callOpenaiAndParse true env.completion systemPrompt
            (userPrompt true text q)).1.reasoning = some v)
    (ht : jTruthy v = true) :
    Event.spanCot v ∈ (summarizeContent env text q true url).2 := by
  unfold summarizeContent
  rw [hl, hc]
  simp [hr, ht]

/-- C3: the scrubber replaces each email-address-shaped substring with the
    fixed placeholder `[REDACTED_EMAIL]` and each API-key-shaped substring
    (`sk`/`pk`, a hyphen, then an alphanumeric/underscore/hyphen run) with the
    fixed placeholder `[REDACTED_KEY]`; in particular
    `"contact me at a@b.com"` scrubs to `"contact me at [REDACTED_EMAIL]"`.
    Scrubbing is applied only to a string reasoning field destined for the
    telemetry chain-of-thought span and never to the user-facing answer: the
    parsed answer is returned verbatim while the chain-of-thought span receives
    the scrubbed reasoning. -/
theorem scrub_redaction :
    scrub_sensitive ("contact me at a@b.com".toList)
      = "contact me at [REDACTED_EMAIL]".toList ∧
    scrub_sensitive ("use sk-ABC_12 now".toList) = "use [REDACTED_KEY] now".toList ∧
    (∀ (resp : CompletionResp) (fields : List (List Char × JValue))
        (a r sys user : List Char),
      resp.decoded = some (JValue.jobj fields) →
      lookupField fields answerKey = some (JValue.jstr a) →
      lookupField fields reasoningKey = some (JValue.jstr r) →
      (callOpenaiAndParse true resp sys user).1.answer = some a ∧
      (callOpenaiAndParse true resp sys user).1.reasoning
        = some (JValue.jstr (scrub_sensitive r))) ∧
    (∀ (env : Env) (text q url : List Char) (fields : List (List Char × JValue))
        (a r : List Char),
      env.langfuse = true → env.captureCot = true →
      env.completion.decoded = some (JValue.jobj fields) →
      lookupField fields answerKey = some (JValue.jstr a) →
      lookupField fields reasoningKey = some (JValue.jstr r) →
      scrub_sensitive r ≠ [] →
      (summarizeContent env text q true url).1 = some a ∧
      Event.spanCot (JValue.jstr (scrub_sensitive r))
        ∈ (summarizeContent env text q true url).2) := by
  refine ⟨by decide, by decide, ?_, ?_⟩
  · intro resp fields a r sys user hd ha hr
    rw [callOpenai_cot_obj resp fields sys user hd]
    constructor
    · rw [ha]
      rfl
    · rw [hr]
  · intro env text q url fields a r hl hc hd ha hr hne
    have ht : jTruthy (JValue.jstr (scrub_sensitive r)) = true := by
      cases hx : scrub_sensitive r with
      | nil => exact absurd hx hne
      | cons x xs => rfl
    have hobj := callOpenai_cot_obj env.completion fields systemPrompt
      (userPrompt true text q) hd
    constructor
    · rw [summarizeContent_answer env text q true url, hc, hobj, ha]
      rfl
    · refine summarize_cot_span_mem env text q url _ hl hc ?_ ht
      rw [hobj, hr]

theorem scrub_redaction_witness :
    (summarizeContent envCotEmail [] [] true []).1 = some ("X".toList) ∧
    Event.spanCot (JValue.jstr (scrub_sensitive ("contact me at a@b.com".toList)))
      ∈ (summarizeContent envCotEmail [] [] true []).2 :=
  scrub_redaction.2.2.2 envCotEmail [] [] [] cotEmailFields ("X".toList)
    ("contact me at a@b.com".toList) rfl rfl rfl rfl rfl (by decide)

/-- C4 counterexample: the completion body `"[1, 2]"` decodes successfully
    (json.loads yields the array `[1, 2]`), yet the parsed answer is the raw
    response text `"[1, 2]"` and not the empty string that the
    missing-answer-field default would produce: decoding to a non-object also
    takes the raw-text fallback, contradicting the claim that every
    successfully decoded body has its answer field taken. -/
theorem parse_json_nonobject_cex :
    (⟨some ("[1, 2]".toList),
      some (JValue.jarr [JValue.jint 1, JValue.jint 2])⟩ : CompletionResp).decoded.isSome
      = true ∧
    (callOpenaiAndParse true
      ⟨some ("[1, 2]".toList), some (JValue.jarr [JValue.jint 1, JValue.jint 2])⟩
      [] []).1.answer = some ("[1, 2]".toList) ∧
    some ("[1, 2]".toList) ≠ some ([] : List Char) := by
  refine ⟨rfl, ?_, by decide⟩
  simp [callOpenaiAndParse]

/-- C4 (amended): in reasoning mode, for every completion response body that
    decodes to a JSON object, the answer field is taken (a missing answer
    defaults to the empty string) and reasoning/intermediate_steps are mapped
    from the object; for every body that fails JSON decoding — and likewise for
    every body that decodes to a non-object JSON value, whose attribute access
    raises inside the same try block — the entire raw response text becomes the
    answer and both reasoning and steps are absent. -/
theorem parse_json_fallback :
    ∀ (resp : CompletionResp) (sys user : List Char),
      (∀ fields, resp.decoded = some (JValue.jobj fields) →
        (callOpenaiAndParse true resp sys user).1.answer
          = some (pyStr ((lookupField fields answerKey).getD (JValue.jstr []))) ∧
        (callOpenaiAndParse true resp sys user).1.steps
          = lookupField fields stepsKey) ∧
      ((∀ fields, resp.decoded ≠ some (JValue.jobj fields)) →
        (callOpenaiAndParse true resp sys user).1
          = ⟨some (resp.content.getD []), none, none⟩) := by
  intro resp sys user
  constructor
  · intro fields hd
    rw [callOpenai_cot_obj resp fields sys user hd]
    exact ⟨rfl, rfl⟩
  · intro hnd
    cases hd : resp.decoded with
    | none => simp [callOpenaiAndParse, hd]
    | some v =>
      cases v with
      | jobj fs => exact absurd hd (hnd fs)
      | jnull => simp [callOpenaiAndParse, hd]
      | jbool b => simp [callOpenaiAndParse, hd]
      | jint n => simp [callOpenaiAndParse, hd]
      | jstr s => simp [callOpenaiAndParse, hd]
      | jarr xs => simp [callOpenaiAndParse, hd]

theorem parse_json_fallback_witness :
    (callOpenaiAndParse true
      ⟨some [], some (JValue.jobj [(answerKey, JValue.jstr ("X".toList))])⟩
      [] []).1.answer = some ("X".toList) ∧
    (callOpenaiAndParse true ⟨some ("plain text reply".toList), none⟩ [] []).1
      = ⟨some ("plain text reply".toList), none, none⟩ := by
  constructor
  · rw [((parse_json_fallback
        ⟨some [], some (JValue.jobj [(answerKey, JValue.jstr ("X".toList))])⟩
        [] []).1 [(answerKey, JValue.jstr ("X".toList))] rfl).1]
    rfl
  · rw [(parse_json_fallback ⟨some ("plain text reply".toList), none⟩ [] []).2
      (fun fields h => Option.noConfusion h)]
    rfl

/-- C8: the returned `(url, scrapedText, summary)` tuple does not depend on the
    telemetry state in any way — two runs agreeing on the fetch outcome, the
    capture mode and the completion behavior return the same tuple whatever the
    values of the telemetry construction flag and of every per-call success
    flag (so a failed telemetry-backend construction, or a failure in trace,
    span or generation creation, never alters the result); and when the
    telemetry construction failed, the recorder stays absent and the run
    attempts no telemetry call at all. -/
theorem telemetry_transparent :
    ∀ (env env' : Env) (input : List Char),
      env.fetch = env'.fetch → env.captureCot = env'.captureCot →
      env.completion = env'.completion →
      (respond env input).1 = (respond env' input).1 ∧
      (env.langfuse = false →
        ((respond env input).2.filter isTelemetryEvent) = []) := by
  intro env env' input hf hc hcomp
  cases hu : extract_first_url input with
  | none =>
    constructor
    · unfold respond
      rw [hu]
    · intro _
      unfold respond
      rw [hu]
      rfl
  | some url =>
    constructor
    · rw [respond_some env input url hu, respond_some env' input url hu]
      simp only [summarizeContent_answer, hf, hc, hcomp]
    · intro hl
      rw [respond_some env input url hu,
          summarizeContent_events_nofuse env (scrapeWebsite env.fetch) input
            (env.langfuse && env.traceOk) url hl]
      simp [hl, isTelemetryEvent]

theorem telemetry_transparent_witness :
    (respond envFetchFail ("http://a".toList)).1
      = (respond envFetchFailTel ("http://a".toList)).1 ∧
    ((respond envFetchFail ("http://a".toList)).2.filter isTelemetryEvent) = [] :=
  ⟨(telemetry_transparent envFetchFail envFetchFailTel ("http://a".toList)
      rfl rfl rfl).1,
   (telemetry_transparent envFetchFail envFetchFailTel ("http://a".toList)
      rfl rfl rfl).2 rfl⟩

/-- C9: in reasoning mode, when the decoded object's reasoning field is present
    but is not a string (an array, an object, a number, a boolean or null), it
    is returned as parsed and — when truthy — handed to the telemetry
    chain-of-thought span without any scrubbing; redaction is applied exactly
    when the reasoning field is a string. -/
theorem reasoning_nonstring_unscrubbed :
    (∀ (env : Env) (text q url : List Char) (fields : List (List Char × JValue))
        (v : JValue),
      env.langfuse = true → env.captureCot = true →
      env.completion.decoded = some (JValue.jobj fields) →
      lookupField fields reasoningKey = some v →
      (∀ s, v ≠ JValue.jstr s) →
      jTruthy v = true →
      (callOpenaiAndParse true env.completion systemPrompt
          (userPrompt true text q)).1.reasoning = some v ∧
      Event.spanCot v ∈ (summarizeContent env text q true url).2) ∧
    (∀ (resp : CompletionResp) (sys user : List Char)
        (fields : List (List Char × JValue)) (r : List Char),
      resp.decoded = some (JValue.jobj fields) →
      lookupField fields reasoningKey = some (JValue.jstr r) →
      (callOpenaiAndParse true resp sys user).1.reasoning
        = some (JValue.jstr (scrub_sensitive r))) := by
  constructor
  · intro env text q url fields v hl hc hd hr hns ht
    have hv : (callOpenaiAndParse true env.completion systemPrompt
        (userPrompt true text q)).1.reasoning = some v := by
      rw [callOpenai_cot_obj env.completion fields systemPrompt
          (userPrompt true text q) hd]
      rw [show (ParseOut.mk (some (pyStr ((lookupField fields answerKey).getD
            (JValue.jstr []))))
          (match lookupField fields reasoningKey with
           | some (JValue.jstr r) => some (JValue.jstr (scrub_sensitive r))
           | v => v)
          (lookupField fields stepsKey)).reasoning
        = (match lookupField fields reasoningKey with
           | some (JValue.jstr r) => some (JValue.jstr (scrub_sensitive r))
           | v => v) from rfl]
      rw [hr]
      cases v with
      | jnull => rfl
      | jbool b => rfl
      | jint n => rfl
      | jstr s => exact absurd rfl (hns s)
      | jarr xs => rfl
      | jobj fs => rfl
    exact ⟨hv, summarize_cot_span_mem env text q url v hl hc hv ht⟩
  · intro resp sys user fields r hd hr
    rw [callOpenai_cot_obj resp fields sys user hd]
    rw [show (ParseOut.mk (some (pyStr ((lookupField fields answerKey).getD
          (JValue.jstr []))))
        (match lookupField fields reasoningKey with
         | some (JValue.jstr r) => some (JValue.jstr (scrub_sensitive r))
         | v => v)
        (lookupField fields stepsKey)).reasoning
      = (match lookupField fields reasoningKey with
         | some (JValue.jstr r) => some (JValue.jstr (scrub_sensitive r))
         | v => v) from rfl]
    rw [hr]

theorem reasoning_nonstring_unscrubbed_witness :
    Event.spanCot (JValue.jarr [JValue.jstr ("a@b.com".toList)])
      ∈ (summarizeContent envArrReasoning [] [] true []).2 :=
  (reasoning_nonstring_unscrubbed.1 envArrReasoning [] [] [] arrReasoningFields
      (JValue.jarr [JValue.jstr ("a@b.com".toList)])
      rfl rfl rfl rfl (fun s h => JValue.noConfusion h) rfl).2
